import Mathlib

/-!
Verification of the cs-ble-controller driver (csllc/cs-ble-controller).

This file shallowly embeds the parts of the source that the claims are
about:

* the command queue / sequence-correlation engine of
  `src/lib/Controller.js` (`command`, `sendNextCommand`, `onResponse`,
  `handleResponseTimeout`, `disconnect`), whose logic is repeated by
  `BleDevice.command`, `BleDevice._sendNextCommand` and
  `BleDevice._handleResponseTimeout` in `src/unnamed/part_003` (those
  copies refer to the queue both as `commandQueue` and `_commandQueue`;
  the embedding follows the `Controller` variant, where it is one
  field);
* the chunking loops of `Controller.prototype.write` and
  `BleDevice.write`;
* the GATT verification step `BleDevice._checkGattServicesAndChars`;
* the watcher operations `BleDevice.watch`, `BleDevice.unwatch`,
  `BleDevice.superWatch` and `BleDevice._modbusCommandSupported`,
  together with the CS1816 capability descriptor
  (`src/lib/device/cs1816.js`).

JavaScript numbers that hold byte values are modelled as `Nat` with
explicit `% 256` / `&&& 0xFF` where the source masks; watcher slots are
`Int` because callers may pass negative slots to the range checks.
Values that the source distinguishes only as `null` / `undefined` /
timer handle (the `responseTimer` field) are modelled by `JsTimer`.
-/

namespace CsBle

/-- Model of the JavaScript values that the `responseTimer` field of a
queued command ranges over: `null` (as initialised by `command()`),
`undefined` (the value of an absent argument), or a timer handle
returned by `setTimeout`.  In JavaScript `null`, `undefined` and timer
objects are pairwise distinct under strict equality `===`. -/
inductive JsTimer where
  | jnull : JsTimer
  | jundef : JsTimer
  | jtimer (id : Nat) : JsTimer
deriving DecidableEq, Repr

/-- A queued command, as pushed by `Controller.prototype.command`
(`src/lib/Controller.js:685`, also `BleDevice.command`,
`src/unnamed/part_003:296`):
`{ command, sequence, responseTimer: null, options, callback }`.
`uid` is an identity for the queue entry (a fresh JS object per push);
`callback` is an identifier for the caller-supplied callback function.
The `options` record only carries the timeout duration, which the
queue logic never branches on, so it is not modelled. -/
structure Cmd where
  uid : Nat
  command : List Nat
  sequence : Nat
  responseTimer : JsTimer
  callback : Nat
deriving DecidableEq, Repr

/-- Argument with which a queued command callback is invoked: either
`callback(null, data)` on a matched response, or `callback(err)`. -/
inductive CbArg where
  | ok (data : List Nat) : CbArg
  | err (msg : String) : CbArg
deriving DecidableEq, Repr

/-- State of the command sequencer of `Controller`
(`src/lib/Controller.js:145-148`): the FIFO `commandQueue`, the 8-bit
`commandSequence` counter, plus observation logs.  `completions`
records each callback invocation in order; `writes` records each
`writeCharacteristic(commandChar, ...)` issued by `sendNextCommand`,
tagged with the uid of the queue entry written.  `nextUid` and
`timerCounter` supply fresh identities for queue entries and timer
handles. -/
structure CSState where
  commandQueue : List Cmd
  commandSequence : Nat
  nextUid : Nat
  timerCounter : Nat
  completions : List (Nat × CbArg)
  writes : List (Nat × List Nat)
deriving DecidableEq, Repr

/-- Initial sequencer state: empty queue, `commandSequence = 0`
(`src/lib/Controller.js:145-148`). -/
def initState : CSState :=
  { commandQueue := [], commandSequence := 0, nextUid := 0,
    timerCounter := 0, completions := [], writes := [] }

/-- The uids of queue entries that have been written to the command
characteristic. -/
def writtenUids (s : CSState) : List Nat := s.writes.map Prod.fst

/-- `Controller.prototype.sendNextCommand` (`src/lib/Controller.js:600`,
also `BleDevice._sendNextCommand`, `src/unnamed/part_003:321`): if the
queue is non-empty, emit `sendCommand` and issue a characteristic
write of the head command's bytes.  The asynchronous continuations of
that write (arming the response timer on success, failing the command
on error) are separate events, modelled by `writeSucceeded` and
`writeFailed` below. -/
def sendNextCommand (s : CSState) : CSState :=
  match s.commandQueue with
  | [] => s
  | c :: _ => { s with writes := s.writes ++ [(c.uid, c.command)] }

/-- `Controller.prototype.command` (`src/lib/Controller.js:678-702`,
also `BleDevice.command`, `src/unnamed/part_003:289-313`): push a new
entry carrying the current `commandSequence`, advance the counter by
`(seq + 1) & 0xFF`, and if the queue length just became 1, try to
start the command. -/
def command (cmd : List Nat) (cb : Nat) (s : CSState) : CSState :=
  let s1 : CSState :=
    { s with
      commandQueue := s.commandQueue ++
        [{ uid := s.nextUid, command := cmd, sequence := s.commandSequence,
           responseTimer := JsTimer.jnull, callback := cb }],
      nextUid := s.nextUid + 1,
      commandSequence := (s.commandSequence + 1) % 256 }
  if s1.commandQueue.length = 1 then sendNextCommand s1 else s1

/-- `Controller.prototype.onResponse` (`src/lib/Controller.js:262-295`):
for a notification of at least 2 bytes, read the sequence byte and the
code byte and take the rest as data; if the queue is non-empty and the
head's sequence strictly equals the sequence byte, invoke the head's
callback with `(null, data)`, shift the queue, and send the next
command; otherwise only log.  The response timer is not cancelled
here. -/
def onResponse (s : CSState) (response : List Nat) : CSState :=
  match response with
  | seq :: _code :: data =>
    match s.commandQueue with
    | [] => s
    | c :: rest =>
      if c.sequence = seq then
        sendNextCommand
          { s with
            commandQueue := rest,
            completions := s.completions ++ [(c.callback, CbArg.ok data)] }
      else s
  | _ => s

/-- `Controller.prototype.handleResponseTimeout`
(`src/lib/Controller.js:642-662`, also
`BleDevice._handleResponseTimeout`, `src/unnamed/part_003:356-374`):
if the queue is non-empty and the head's `responseTimer` strictly
equals the `timer` argument, fail the head with `Error('Timeout')`,
shift the queue and send the next command.  The handler is installed
as `setTimeout(me.handleResponseTimeout.bind(this), timeout)` with no
extra arguments, so when the timer fires the `timer` parameter is
`undefined`. -/
def handleResponseTimeout (s : CSState) (timer : JsTimer) : CSState :=
  match s.commandQueue with
  | [] => s
  | c :: rest =>
    if c.responseTimer = timer then
      sendNextCommand
        { s with
          commandQueue := rest,
          completions := s.completions ++ [(c.callback, CbArg.err "Timeout")] }
    else s

/-- Success continuation of the characteristic write issued by
`sendNextCommand` (`src/lib/Controller.js:627`): arm the response
timer on the head command,
`command.responseTimer = setTimeout(..., command.options.timeout)`. -/
def writeSucceeded (s : CSState) : CSState :=
  match s.commandQueue with
  | [] => s
  | c :: rest =>
    { s with
      commandQueue := { c with responseTimer := JsTimer.jtimer s.timerCounter } :: rest,
      timerCounter := s.timerCounter + 1 }

/-- Failure continuation of the characteristic write issued by
`sendNextCommand` (`src/lib/Controller.js:617-621`): fail the head's
callback with the error, shift the queue, and send the next
command. -/
def writeFailed (s : CSState) (msg : String) : CSState :=
  match s.commandQueue with
  | [] => s
  | c :: rest =>
    sendNextCommand
      { s with
        commandQueue := rest,
        completions := s.completions ++ [(c.callback, CbArg.err msg)] }

/-- States of the command sequencer reachable by any interleaving of
enqueues, response notifications, timer firings and write-promise
continuations.  The timeout event always passes `undefined` because
`setTimeout` is given no extra arguments; the write continuations are
allowed to fire in any state, which over-approximates the real
schedules (each continuation really fires at most once, after its
write). -/
inductive Reachable : CSState → Prop where
  | init : Reachable initState
  | enqueue (cmd : List Nat) (cb : Nat) {s : CSState} :
      Reachable s → Reachable (command cmd cb s)
  | response (resp : List Nat) {s : CSState} :
      Reachable s → Reachable (onResponse s resp)
  | timeout {s : CSState} :
      Reachable s → Reachable (handleResponseTimeout s JsTimer.jundef)
  | wOk {s : CSState} :
      Reachable s → Reachable (writeSucceeded s)
  | wFail (msg : String) {s : CSState} :
      Reachable s → Reachable (writeFailed s msg)

/-- The queued commands that are in the Sent state: written to the
command characteristic and still awaiting response or timeout. -/
def sentCmds (s : CSState) : List Cmd :=
  s.commandQueue.filter (fun c => c.uid ∈ writtenUids s)

/-- Structural invariant of the command sequencer: queue entries carry
fresh, pairwise distinct identities; only identities already handed
out have been written; no command behind the head has been written;
and no queued command's `responseTimer` is `undefined` (it is `null`
at creation and a timer handle after a successful write). -/
def Inv (s : CSState) : Prop :=
  (∀ c ∈ s.commandQueue, c.uid < s.nextUid)
  ∧ (s.commandQueue.map Cmd.uid).Nodup
  ∧ (∀ u ∈ writtenUids s, u < s.nextUid)
  ∧ (∀ c ∈ s.commandQueue.tail, c.uid ∉ writtenUids s)
  ∧ (∀ c ∈ s.commandQueue, c.responseTimer ≠ JsTimer.jundef)

/-- The queue entry that `command cmd cb` pushes in state `s`. -/
def pushedCmd (cmd : List Nat) (cb : Nat) (s : CSState) : Cmd :=
  { uid := s.nextUid, command := cmd, sequence := s.commandSequence,
    responseTimer := JsTimer.jnull, callback := cb }

/-- Iterated `command()` calls: fold the enqueue operation over a list
of (command bytes, callback) pairs. -/
def applyCommands (s : CSState) (cmds : List (List Nat × Nat)) : CSState :=
  cmds.foldl (fun st p => command p.1 p.2 st) s

/-- Connection-level state of `Controller`: the command sequencer state
plus the references that `disconnect` nulls out
(`src/lib/Controller.js:569-596` and the identical second variant at
`src/lib/Controller.js:1333-1360`).  References are modelled as
`Option`s (`none` is JavaScript `null`). -/
structure ConnState where
  commandQueue : List Cmd
  completions : List (Nat × CbArg)
  rxCharacteristic : Option Nat
  txCharacteristic : Option Nat
  deviceType : Option String
  peripheral : Option Nat
  controllerService : Option Nat
deriving DecidableEq, Repr

/-- `Controller.prototype.disconnect` (`src/lib/Controller.js:569-596`,
second variant 1333-1360): inside the `peripheral.disconnect` callback
it sets `rxCharacteristic`, `txCharacteristic`, `deviceType`,
`peripheral` and `controllerService` to `null` and emits
`disconnected`.  It does not touch `commandQueue`, does not invoke any
pending callback, and does not call `clearTimeout`. -/
def disconnect (s : ConnState) : ConnState :=
  { s with rxCharacteristic := none, txCharacteristic := none,
           deviceType := none, peripheral := none, controllerService := none }

/-- Chunking loop of `Controller.prototype.write`
(`src/lib/Controller.js:1257-1264`): while bytes remain,
`chunk = data.slice(index, index + 20)` — so the final chunk is just
the remaining bytes — and each chunk is pushed in order. -/
def controllerChunks (data : List Nat) : List (List Nat) :=
  if h : data = [] then []
  else data.take 20 :: controllerChunks (data.drop 20)
termination_by data.length
decreasing_by
  simp only [List.length_drop]
  have hp : 0 < data.length := List.length_pos.mpr h
  omega

/-- The buffers constructed per iteration of the chunking loop of
`BleDevice.write` (`src/unnamed/part_003:235-246`): while bytes
remain, `chunk = Buffer.alloc(20)` (20 zero bytes) and
`data.copy(chunk, 0, index, index + 20)` copies the available bytes
over the front — so every constructed buffer, including the final
one, is exactly 20 bytes, the final one padded with zeros.  What the
pool actually writes is `bleIssuedChunks` below. -/
def bleChunks (data : List Nat) : List (List Nat) :=
  if h : data = [] then []
  else (data.take 20 ++ List.replicate (20 - (data.take 20).length) 0)
    :: bleChunks (data.drop 20)
termination_by data.length
decreasing_by
  simp only [List.length_drop]
  have hp : 0 < data.length := List.length_pos.mpr h
  omega

/-- The buffers that `BleDevice.write` actually hands to
`_writeCharacteristic` (`src/unnamed/part_003:230-246`).  The loop
declares a single function-scoped `var chunk` binding and adds
`() => this._writeCharacteristic(txChar, chunk, true)` closures to a
concurrency-1 `PromisePool`; all of them read that one binding when
they run.  The first producer starts when it is added to the empty
pool, during the first iteration, so it writes the first constructed
buffer; every later producer runs as a promise continuation after the
previous write settles — by run-to-completion that is after the
synchronous `while` loop has finished, when `chunk` holds the final
zero-padded buffer.  So the issued sequence is the first constructed
buffer followed by `n - 1` copies of the last constructed one. -/
def bleIssuedChunks (data : List Nat) : List (List Nat) :=
  match bleChunks data with
  | [] => []
  | c :: rest => c :: List.replicate rest.length ((c :: rest).getLastD [])

/-- A characteristic entry of the working `periphInfo` copy during
inspection: its descriptor key and UUID, the `optional` flag from the
capability descriptor (`src/lib/device/cs1816.js`), and whether
discovery bound a live characteristic to it (`.char` set by
`_discoverGattServices`). -/
structure CharEntry where
  key : String
  uuid : String
  isOptional : Bool
  present : Bool
deriving DecidableEq, Repr

/-- A service entry of the working `periphInfo` copy: descriptor key and
UUID, whether discovery bound a live service (`.service` set), and its
characteristic entries in descriptor order. -/
structure ServiceEntry where
  key : String
  uuid : String
  present : Bool
  characteristics : List CharEntry
deriving DecidableEq, Repr

/-- Error message of `_checkGattServicesAndChars` for a missing service
(`src/unnamed/part_003:486`).  The source wraps the key in single
quotation marks, omitted here. -/
def svcErrMsg (sKey uuid : String) : String :=
  "Peripheral missing GATT service " ++ sKey ++ " with UUID " ++ uuid

/-- Error message of `_checkGattServicesAndChars` for a missing
non-optional characteristic (`src/unnamed/part_003:497`).  The source
wraps the keys in single quotation marks, omitted here. -/
def charErrMsg (cKey sKey uuid : String) : String :=
  "Peripheral missing characteristic " ++ cKey ++ " of GATT service " ++ sKey
    ++ " with UUID " ++ uuid

/-- Inner loop of `_checkGattServicesAndChars`
(`src/unnamed/part_003:492-502`): for each characteristic entry, if it
is unbound and not optional, reject with `charErrMsg`; otherwise count
it.  Because the surrounding Promise settles with the first `reject`
or the final `resolve`, the observable result is the first error in
iteration order, else the count. -/
def checkChars (sKey : String) : List CharEntry → Except String Nat
  | [] => Except.ok 0
  | c :: rest =>
    if !c.present && !c.isOptional then
      Except.error (charErrMsg c.key sKey c.uuid)
    else (checkChars sKey rest).map (· + 1)

/-- `BleDevice._checkGattServicesAndChars`
(`src/unnamed/part_003:474-507`): iterate the services of `periphInfo`
in order; a missing service rejects with `svcErrMsg` (before its
characteristics are examined), then the characteristics are checked;
the Promise settles with the first rejection, or resolves with
`(foundServices, foundChars)`. -/
def checkGatt : List ServiceEntry → Except String (Nat × Nat)
  | [] => Except.ok (0, 0)
  | s :: rest =>
    if !s.present then Except.error (svcErrMsg s.key s.uuid)
    else
      match checkChars s.key s.characteristics with
      | Except.error e => Except.error e
      | Except.ok cc =>
        match checkGatt rest with
        | Except.error e => Except.error e
        | Except.ok (fs, fc) => Except.ok (fs + 1, cc + fc)

/-- A characteristic entry passes the check: bound, or optional. -/
def charOk (c : CharEntry) : Prop := c.present = true ∨ c.isOptional = true

/-- A service entry passes the check: bound, and all its characteristic
entries pass. -/
def svcOk (s : ServiceEntry) : Prop :=
  s.present = true ∧ ∀ c ∈ s.characteristics, charOk c

instance (c : CharEntry) : Decidable (charOk c) := by
  unfold charOk
  infer_instance

instance (s : ServiceEntry) : Decidable (svcOk s) := by
  unfold svcOk
  infer_instance

/-- A command entry of a capability descriptor
(`src/lib/device/cs1816.js`, `commands`).  `requirements` holds the
version preconditions as written in the descriptor, with the value
rendered as the string the JavaScript loose comparison against the
read software-revision characteristic string reduces to.
`requriements` is the property that `_modbusCommandSupported`
actually reads in its guard (`src/unnamed/part_003:1046`); the source
spells it that way and no descriptor defines a property of that name,
so it is `undefined` (`none`) on every command.  The `params` table of
`getWatcher` is not modelled (no claim uses it). -/
structure CommandDef where
  opCode : Nat
  maxLen : Option Nat := none
  slot : Option Nat := none
  requirements : List (String × String) := []
  requriements : Option (List (String × String)) := none
deriving DecidableEq, Repr

/-- The `commands` table of the CS1816 descriptor
(`src/lib/device/cs1816.js:4-34`), as the lookup
`this.periphInfo.commands[commandKey]`. -/
def cs1816commands : String → Option CommandDef := fun key =>
  if key = "configure" then some { opCode := 0 }
  else if key = "keySwitch" then some { opCode := 1 }
  else if key = "watch" then some { opCode := 2, maxLen := some 4 }
  else if key = "unwatch" then some { opCode := 3 }
  else if key = "unwatchAll" then some { opCode := 4 }
  else if key = "superWatch" then
    some { opCode := 5, requirements := [("softwareRevision", "1.5")],
           slot := some 255 }
  else if key = "getWatcher" then
    some { opCode := 6, requirements := [("softwareRevision", "1.5")] }
  else none

/-- Result of `_modbusCommandSupported`
(`src/unnamed/part_003:1039-1060`). -/
structure SupportResult where
  supported : Bool
  reason : Option String
deriving DecidableEq, Repr

/-- `BleDevice._modbusCommandSupported`
(`src/unnamed/part_003:1039-1060`).  `periphInfo` maps a key (such as
`softwareRevision`, populated from the device-information
characteristics during `inspect()`) to its string value.  The guard
`if (command.requriements)` tests the misspelled property, and only
when it is truthy iterates `Object.entries(command.requirements)`,
setting `supported = false` with a reason on each mismatching entry
(the JavaScript loose comparison of the revision string against the
descriptor's number is modelled as string equality). -/
def modbusCommandSupported (commands : String → Option CommandDef)
    (periphInfo : String → Option String) (commandKey : String) : SupportResult :=
  match commands commandKey with
  | some command =>
    match command.requriements with
    | some _ =>
      command.requirements.foldl
        (fun acc kv =>
          if periphInfo kv.1 ≠ some kv.2 then
            { supported := false,
              reason := some (commandKey ++ " requires " ++ kv.1 ++ " == "
                ++ kv.2 ++ ", this peripheral reports a different value") }
          else acc)
        { supported := true, reason := none }
    | none => { supported := true, reason := none }
  | none =>
    { supported := false, reason := some (commandKey ++ " is not defined.") }

/-- Observable transport and bookkeeping actions of the watcher
operations: unsubscribe or subscribe on a characteristic (by its key),
a device-side Modbus command to the peripheral, storing or clearing a
watcher callback, an emitted event. -/
inductive Action where
  | unsub (key : String) : Action
  | devCmd (opCode : Nat) (params : List Int) : Action
  | setCb (slot : Int) : Action
  | setSuperCb : Action
  | clearCb (field : String) (slot : Option Int) : Action
  | sub (key : String) : Action
  | emitEv (name : String) : Action
deriving DecidableEq, Repr

/-- Rejection message of `watch` for an out-of-range slot
(`src/unnamed/part_003:813`). -/
def watchInvalidSlotMsg (slot : Int) (modelNumber : String) (watcherMax : Nat) :
    String :=
  "watch: Invalid slot " ++ toString slot ++ ". Range for " ++ modelNumber
    ++ " is 0 to " ++ toString ((watcherMax : Int) - 1) ++ "."

/-- `BleDevice.watch` (`src/unnamed/part_003:786-818`): if the `watch`
command is absent from the descriptor, reject not-implemented; if the
slot is outside `[0, watcherMax)`, reject invalid-slot; if the length
exceeds `watch.maxLen`, reject; otherwise unsubscribe the slot's
status characteristic, issue the device command
`[slot, id, address >> 8, address & 0xFF, length]`, store the
callback, re-subscribe with it, and emit `watch`.  The result is the
list of performed actions plus an optional rejection message. -/
def watch (watchCmd : Option CommandDef) (modelNumber : String)
    (watcherMax : Nat) (slot : Int) (id address len : Nat) :
    List Action × Option String :=
  match watchCmd with
  | none => ([], some ("watch is not implemented on " ++ modelNumber))
  | some wc =>
    if 0 ≤ slot ∧ slot < (watcherMax : Int) then
      if len ≤ wc.maxLen.getD 0 then
        ([Action.unsub ("status" ++ toString (slot + 1)),
          Action.devCmd wc.opCode
            [slot, (id : Int), ((address >>> 8 : Nat) : Int),
             ((address &&& 255 : Nat) : Int), (len : Int)],
          Action.setCb slot,
          Action.sub ("status" ++ toString (slot + 1)),
          Action.emitEv "watch"], none)
      else
        ([], some ("watch: Read length exceeds maximum length of "
            ++ toString (wc.maxLen.getD 0) ++ " bytes."))
    else ([], some (watchInvalidSlotMsg slot modelNumber watcherMax))

/-- Rejection message of `unwatch` for an invalid slot
(`src/unnamed/part_003:906`). -/
def unwatchInvalidSlotMsg (slot : Int) (modelNumber : String) (watcherMax : Nat) :
    String :=
  "unwatch: Invalid slot " ++ toString slot ++ ". Range for " ++ modelNumber
    ++ " is 0 to " ++ toString ((watcherMax : Int) - 1) ++ "."

/-- `BleDevice.unwatch` (`src/unnamed/part_003:872-913`).  After the
not-implemented check, the selector computes `charKey`, `callback` and
`callbackSlot`: a slot in `[0, watcherMax)` selects the slot's status
characteristic; otherwise, when the slot equals the super-watcher's
reserved slot, the super-watcher is selected (the conjunct
`this._modbusCommandSupported('superWatch')` in that guard is an
object, which is always truthy in JavaScript, so only the slot
comparison decides; `superSlot` is `superwatch.slot` of the
descriptor).  The work is guarded by `if (charKey && slot)`: `charKey`
is a non-empty string here, and the number `slot` is falsy exactly
when it is 0 — so slot 0 falls through to the invalid-slot
rejection even though the selector accepted it. -/
def unwatch (unwatchCmd : Option CommandDef) (superSlot : Option Int)
    (modelNumber : String) (watcherMax : Nat) (slot : Int) :
    List Action × Option String :=
  match unwatchCmd with
  | none => ([], some ("unwatch is not implemented on " ++ modelNumber))
  | some uc =>
    let sel : Option (String × String × Option Int) :=
      if 0 ≤ slot ∧ slot < (watcherMax : Int) then
        some ("status" ++ toString (slot + 1), "_watcherCb", some slot)
      else if superSlot = some slot then
        some ("superWatcher", "_superWatcherCb", none)
      else none
    match sel with
    | some (charKey, cbField, cbSlot) =>
      if slot ≠ 0 then
        ([Action.unsub charKey,
          Action.devCmd uc.opCode [slot],
          Action.clearCb cbField cbSlot,
          Action.emitEv "unwatch"], none)
      else ([], some (unwatchInvalidSlotMsg slot modelNumber watcherMax))
    | none => ([], some (unwatchInvalidSlotMsg slot modelNumber watcherMax))

/-- `BleDevice.superWatch` (`src/unnamed/part_003:831-863`): read the
`superWatch` command from the descriptor, consult
`_modbusCommandSupported`; if supported, unsubscribe the superWatcher
characteristic, issue the device command
`[superwatch.slot, id, ...(addressHigh, addressLow per address)]`,
store the callback, re-subscribe, and emit `superWatch`; otherwise
reject not-implemented with the reported reason. -/
def superWatch (commands : String → Option CommandDef)
    (periphInfo : String → Option String) (modelNumber : String)
    (id : Nat) (addresses : List Nat) : List Action × Option String :=
  let supported := modbusCommandSupported commands periphInfo "superWatch"
  if supported.supported then
    match commands "superWatch" with
    | some superwatch =>
      ([Action.unsub "superWatcher",
        Action.devCmd superwatch.opCode
          (((superwatch.slot.getD 0 : Nat) : Int) :: (id : Int) ::
            (addresses.flatMap
              (fun a => [(((a >>> 8) &&& 255 : Nat) : Int),
                         ((a &&& 255 : Nat) : Int)]))),
        Action.setSuperCb,
        Action.sub "superWatcher",
        Action.emitEv "superWatch"], none)
    | none => ([], some ("superwatch is not implemented on " ++ modelNumber))
  else
    ([], some ("superwatch is not implemented on " ++ modelNumber))

/-- Character-list prefix test, modelling the JavaScript
`key.startsWith('status')` (the built-in `String.startsWith` is not
kernel-reducible, so the check is spelled out over the character
lists). -/
def charsPrefix : List Char → List Char → Bool
  | [], _ => true
  | _ :: _, [] => false
  | p :: ps, c :: cs => p == c && charsPrefix ps cs

/-- The watcher capacity that `inspect()` counts
(`src/unnamed/part_003:585-590`): the number of characteristic keys of
the controller service starting with `status`. -/
def countStatusChars (keys : List String) : Nat :=
  (keys.filter (fun k => charsPrefix "status".data k.data)).length

/-- The characteristic keys of the CS1816 controller service
(`src/lib/device/cs1816.js:54-88`), in descriptor order. -/
def cs1816controllerCharKeys : List String :=
  ["command", "response", "product", "serial", "fault",
   "status1", "status2", "status3", "status4", "status5",
   "status6", "status7", "status8", "status9", "status10",
   "status11", "status12", "status13", "status14", "status15",
   "superWatcher"]

theorem inv_init : Inv initState := by
  simp [Inv, initState, writtenUids]

theorem command_eq_nil (cmd : List Nat) (cb : Nat) (s : CSState)
    (hq : s.commandQueue = []) :
    command cmd cb s =
      { s with commandQueue := [pushedCmd cmd cb s],
               nextUid := s.nextUid + 1,
               commandSequence := (s.commandSequence + 1) % 256,
               writes := s.writes ++ [(s.nextUid, cmd)] } := by
  simp [command, sendNextCommand, hq, pushedCmd]

theorem command_eq_cons (cmd : List Nat) (cb : Nat) (s : CSState)
    (q0 : Cmd) (qs : List Cmd) (hq : s.commandQueue = q0 :: qs) :
    command cmd cb s =
      { s with commandQueue := s.commandQueue ++ [pushedCmd cmd cb s],
               nextUid := s.nextUid + 1,
               commandSequence := (s.commandSequence + 1) % 256 } := by
  simp [command, sendNextCommand, hq, pushedCmd]

theorem inv_command (cmd : List Nat) (cb : Nat) (s : CSState) (h : Inv s) :
    Inv (command cmd cb s) := by
  obtain ⟨hb, hn, hw, ht, hr⟩ := h
  cases hq : s.commandQueue with
  | nil =>
    rw [command_eq_nil cmd cb s hq]
    refine ⟨?_, ?_, ?_, ?_, ?_⟩
    · intro c hc
      simp only [List.mem_singleton] at hc
      simp [hc, pushedCmd]
    · simp
    · intro u hu
      simp only [writtenUids, List.map_append, List.mem_append] at hu
      rcases hu with hu | hu
      · exact Nat.lt_succ_of_lt (hw u hu)
      · simp only [List.map_cons, List.map_nil, List.mem_singleton] at hu
        simp [hu]
    · intro c hc
      simp at hc
    · intro c hc
      simp only [List.mem_singleton] at hc
      simp [hc, pushedCmd]
  | cons q0 qs =>
    rw [command_eq_cons cmd cb s q0 qs hq]
    rw [hq] at hb hn ht hr ⊢
    refine ⟨?_, ?_, ?_, ?_, ?_⟩
    · intro c hc
      rcases List.mem_append.mp hc with hc | hc
      · exact Nat.lt_succ_of_lt (hb c hc)
      · simp only [List.mem_singleton] at hc
        simp [hc, pushedCmd]
    · rw [List.map_append, List.nodup_append]
      refine ⟨hn, by simp, ?_⟩
      intro u hu hu'
      simp only [List.map_cons, List.map_nil, List.mem_singleton, pushedCmd] at hu'
      rcases List.mem_map.mp hu with ⟨c, hc, hcu⟩
      have := hb c hc
      omega
    · intro u hu
      exact Nat.lt_succ_of_lt (hw u hu)
    · intro c hc
      simp only [List.cons_append, List.tail_cons] at hc
      rcases List.mem_append.mp hc with hc | hc
      · exact ht c (by simpa using hc)
      · simp only [List.mem_singleton] at hc
        intro hmem
        have := hw _ hmem
        simp [hc, pushedCmd] at this
    · intro c hc
      rcases List.mem_append.mp hc with hc | hc
      · exact hr c hc
      · simp only [List.mem_singleton] at hc
        simp [hc, pushedCmd]

theorem inv_popSend (s : CSState) (c : Cmd) (rest : List Cmd)
    (comps : List (Nat × CbArg)) (hq : s.commandQueue = c :: rest) (h : Inv s) :
    Inv (sendNextCommand { s with commandQueue := rest, completions := comps }) := by
  obtain ⟨hb, hn, hw, ht, hr⟩ := h
  rw [hq] at hb hn ht hr
  cases rest with
  | nil =>
    simp only [sendNextCommand]
    exact ⟨by simp, by simp, fun u hu => hw u hu, by simp, by simp⟩
  | cons r rs =>
    simp only [sendNextCommand]
    refine ⟨?_, ?_, ?_, ?_, ?_⟩
    · intro x hx
      exact hb x (by simp [List.mem_cons] at hx ⊢; tauto)
    · exact (List.nodup_cons.mp hn).2
    · intro u hu
      simp only [writtenUids, List.map_append, List.mem_append] at hu
      rcases hu with hu | hu
      · exact hw u hu
      · simp only [List.map_cons, List.map_nil, List.mem_singleton] at hu
        subst hu
        exact hb r (by simp)
    · intro x hx
      simp only [List.tail_cons] at hx
      have hxt : x ∈ List.tail (c :: r :: rs) := by simpa using List.mem_cons_of_mem r hx
      have hnot := ht x hxt
      simp only [writtenUids, List.map_append, List.mem_append]
      rintro (hmem | hmem)
      · exact hnot hmem
      · simp only [List.map_cons, List.map_nil, List.mem_singleton] at hmem
        have hrn := (List.nodup_cons.mp hn).2
        have : r.uid ∉ rs.map Cmd.uid := (List.nodup_cons.mp hrn).1
        exact this (hmem ▸ List.mem_map_of_mem Cmd.uid hx)
    · intro x hx
      exact hr x (by simp [List.mem_cons] at hx ⊢; tauto)

theorem inv_onResponse (s : CSState) (resp : List Nat) (h : Inv s) :
    Inv (onResponse s resp) := by
  match resp with
  | [] => simpa [onResponse] using h
  | [seq] => simpa [onResponse] using h
  | seq :: code :: data =>
    cases hq : s.commandQueue with
    | nil => simpa [onResponse, hq] using h
    | cons c rest =>
      by_cases hs : c.sequence = seq
      · have heq : onResponse s (seq :: code :: data) =
            sendNextCommand
              { s with commandQueue := rest,
                       completions := s.completions ++ [(c.callback, CbArg.ok data)] } := by
          simp [onResponse, hq, hs]
        rw [heq]
        exact inv_popSend s c rest _ hq h
      · simpa [onResponse, hq, hs] using h

theorem inv_handleResponseTimeout (s : CSState) (t : JsTimer) (h : Inv s) :
    Inv (handleResponseTimeout s t) := by
  cases hq : s.commandQueue with
  | nil => simpa [handleResponseTimeout, hq] using h
  | cons c rest =>
    by_cases hs : c.responseTimer = t
    · have heq : handleResponseTimeout s t =
          sendNextCommand
            { s with commandQueue := rest,
                     completions := s.completions ++ [(c.callback, CbArg.err "Timeout")] } := by
        simp [handleResponseTimeout, hq, hs]
      rw [heq]
      exact inv_popSend s c rest _ hq h
    · simpa [handleResponseTimeout, hq, hs] using h

theorem inv_writeFailed (s : CSState) (msg : String) (h : Inv s) :
    Inv (writeFailed s msg) := by
  cases hq : s.commandQueue with
  | nil => simpa [writeFailed, hq] using h
  | cons c rest =>
    have heq : writeFailed s msg =
        sendNextCommand
          { s with commandQueue := rest,
                   completions := s.completions ++ [(c.callback, CbArg.err msg)] } := by
      simp [writeFailed, hq]
    rw [heq]
    exact inv_popSend s c rest _ hq h

theorem inv_writeSucceeded (s : CSState) (h : Inv s) :
    Inv (writeSucceeded s) := by
  obtain ⟨hb, hn, hw, ht, hr⟩ := h
  cases hq : s.commandQueue with
  | nil => simpa [writeSucceeded, hq] using ⟨hb, hn, hw, ht, hr⟩
  | cons c rest =>
    rw [hq] at hb hn ht hr
    simp only [writeSucceeded, hq]
    refine ⟨?_, ?_, ?_, ?_, ?_⟩
    · intro x hx
      rcases List.mem_cons.mp hx with hx | hx
      · subst hx
        exact hb c (by simp)
      · exact hb x (by simp [hx])
    · simpa using hn
    · exact hw
    · intro x hx
      simp only [List.tail_cons] at hx
      exact ht x (by simpa using hx)
    · intro x hx
      rcases List.mem_cons.mp hx with hx | hx
      · subst hx
        simp
      · exact hr x (by simp [hx])

theorem reachable_inv {s : CSState} (h : Reachable s) : Inv s := by
  induction h with
  | init => exact inv_init
  | enqueue cmd cb _ ih => exact inv_command cmd cb _ ih
  | response resp _ ih => exact inv_onResponse _ resp ih
  | timeout _ ih => exact inv_handleResponseTimeout _ _ ih
  | wOk _ ih => exact inv_writeSucceeded _ ih
  | wFail msg _ ih => exact inv_writeFailed _ msg ih

/-- C1.  For every state of the command queue with at least one pending
command and every response notification of at least 2 bytes
(`seq :: code :: data`), `onResponse` completes the head command's
callback with the payload and removes the head from the queue exactly
when the response's first byte equals the head's sequence number
(and then sends the next queued command, if any); a response whose
sequence byte differs leaves the whole state, including every pending
callback, unchanged. -/
theorem c1_response_sequence_correlation
    (s : CSState) (c : Cmd) (rest : List Cmd) (seq code : Nat) (data : List Nat)
    (hq : s.commandQueue = c :: rest) :
    (c.sequence = seq →
        (onResponse s (seq :: code :: data)).commandQueue = rest
      ∧ (onResponse s (seq :: code :: data)).completions
          = s.completions ++ [(c.callback, CbArg.ok data)]
      ∧ (rest = [] → (onResponse s (seq :: code :: data)).writes = s.writes)
      ∧ (∀ r rs, rest = r :: rs →
            (onResponse s (seq :: code :: data)).writes
              = s.writes ++ [(r.uid, r.command)]))
    ∧ (c.sequence ≠ seq → onResponse s (seq :: code :: data) = s) := by
  constructor
  · intro hs
    have heq : onResponse s (seq :: code :: data) =
        sendNextCommand
          { s with commandQueue := rest,
                   completions := s.completions ++ [(c.callback, CbArg.ok data)] } := by
      simp [onResponse, hq, hs]
    rw [heq]
    cases rest with
    | nil =>
      refine ⟨rfl, rfl, fun _ => rfl, ?_⟩
      intro r rs hcon
      exact absurd hcon (List.noConfusion)
    | cons r rs =>
      refine ⟨rfl, rfl, by simp, ?_⟩
      intro r' rs' hcon
      injection hcon with h1 h2
      subst h1
      rfl
  · intro hs
    simp [onResponse, hq, hs]

theorem c1_witness :
    (onResponse
        { commandQueue := [⟨0, [0, 16], 5, JsTimer.jtimer 0, 7⟩,
                           ⟨1, [0, 17], 6, JsTimer.jnull, 8⟩],
          commandSequence := 7, nextUid := 2, timerCounter := 1,
          completions := [], writes := [(0, [0, 16])] }
        (5 :: 1 :: [9])).commandQueue = [⟨1, [0, 17], 6, JsTimer.jnull, 8⟩]
  ∧ (onResponse
        { commandQueue := [⟨0, [0, 16], 5, JsTimer.jtimer 0, 7⟩,
                           ⟨1, [0, 17], 6, JsTimer.jnull, 8⟩],
          commandSequence := 7, nextUid := 2, timerCounter := 1,
          completions := [], writes := [(0, [0, 16])] }
        (5 :: 1 :: [9])).completions = [] ++ [(7, CbArg.ok [9])]
  ∧ (onResponse
        { commandQueue := [⟨0, [0, 16], 5, JsTimer.jtimer 0, 7⟩,
                           ⟨1, [0, 17], 6, JsTimer.jnull, 8⟩],
          commandSequence := 7, nextUid := 2, timerCounter := 1,
          completions := [], writes := [(0, [0, 16])] }
        (5 :: 1 :: [9])).writes = [(0, [0, 16])] ++ [(1, [0, 17])] := by
  have h := (c1_response_sequence_correlation
      { commandQueue := [⟨0, [0, 16], 5, JsTimer.jtimer 0, 7⟩,
                         ⟨1, [0, 17], 6, JsTimer.jnull, 8⟩],
        commandSequence := 7, nextUid := 2, timerCounter := 1,
        completions := [], writes := [(0, [0, 16])] }
      ⟨0, [0, 16], 5, JsTimer.jtimer 0, 7⟩
      [⟨1, [0, 17], 6, JsTimer.jnull, 8⟩] 5 1 [9] rfl).1 rfl
  exact ⟨h.1, h.2.1, h.2.2.2 _ _ rfl⟩

/-- C2.  The claim says a firing response timer fails the head command
with a Timeout error and advances the queue.  The code cannot do
this: the handler is installed by
`setTimeout(me.handleResponseTimeout.bind(this), timeout)` with no
arguments, so it always runs with `timer === undefined`, while every
queued command's `responseTimer` is `null` or a timer handle; the
guard `command.responseTimer === timer` is therefore always false and
the handler changes nothing — in every reachable sequencer state the
timeout event is a no-op: no callback fires and the queue keeps its
length. -/
theorem c2_timeout_handler_is_noop {s : CSState} (h : Reachable s) :
    handleResponseTimeout s JsTimer.jundef = s := by
  obtain ⟨_, _, _, _, hr⟩ := reachable_inv h
  cases hq : s.commandQueue with
  | nil => simp [handleResponseTimeout, hq]
  | cons c rest =>
    have hne : c.responseTimer ≠ JsTimer.jundef := hr c (by simp [hq])
    simp [handleResponseTimeout, hq, hne]

theorem c2_witness :
    handleResponseTimeout (writeSucceeded (command [0, 16] 7 initState))
      JsTimer.jundef
      = writeSucceeded (command [0, 16] 7 initState) :=
  c2_timeout_handler_is_noop
    (Reachable.wOk (Reachable.enqueue [0, 16] 7 Reachable.init))

/-- C3.  In every state reachable by any interleaving of enqueues,
response arrivals, timer firings and write continuations, at most one
queued command is in the Sent state (written to the command
characteristic and awaiting response or timeout), and no command
behind the queue head has ever been written — a non-head command is
written only once the previous head has been removed. -/
theorem c3_single_sent_command {s : CSState} (h : Reachable s) :
    (sentCmds s).length ≤ 1
  ∧ ∀ c ∈ s.commandQueue.tail, c.uid ∉ writtenUids s := by
  obtain ⟨_, _, _, ht, _⟩ := reachable_inv h
  refine ⟨?_, ht⟩
  cases hq : s.commandQueue with
  | nil => simp [sentCmds, hq]
  | cons c cs =>
    have ht' : ∀ x ∈ cs, x.uid ∉ writtenUids s := by
      intro x hx
      exact ht x (by rw [hq]; simpa using hx)
    have hfil : cs.filter (fun x => decide (x.uid ∈ writtenUids s)) = [] := by
      apply List.filter_eq_nil_iff.mpr
      intro x hx
      simpa using ht' x hx
    simp only [sentCmds, hq, List.filter_cons]
    split
    · simp [hfil]
    · simp [hfil]

theorem c3_witness :
    (sentCmds (command [1] 7 initState)).length ≤ 1
  ∧ ∀ c ∈ (command [1] 7 initState).commandQueue.tail,
      c.uid ∉ writtenUids (command [1] 7 initState) :=
  c3_single_sent_command (Reachable.enqueue [1] 7 Reachable.init)

theorem command_commandSequence (cmd : List Nat) (cb : Nat) (s : CSState) :
    (command cmd cb s).commandSequence = (s.commandSequence + 1) % 256 := by
  cases hq : s.commandQueue with
  | nil => rw [command_eq_nil cmd cb s hq]
  | cons q0 qs => rw [command_eq_cons cmd cb s q0 qs hq]

theorem command_commandQueue (cmd : List Nat) (cb : Nat) (s : CSState) :
    (command cmd cb s).commandQueue = s.commandQueue ++ [pushedCmd cmd cb s] := by
  cases hq : s.commandQueue with
  | nil =>
    rw [command_eq_nil cmd cb s hq]
    simp
  | cons q0 qs =>
    rw [command_eq_cons cmd cb s q0 qs hq]
    simp [hq]

/-- C10.  Starting from any sequence counter value `s.commandSequence`
below 256, a run of `k` consecutive `command()` calls appends entries
whose assigned sequence numbers are, in issuance order,
`(s.commandSequence + i) % 256` for `i = 0, ..., k-1`, and the
counter ends at `(s.commandSequence + k) % 256`, always staying below
256. -/
theorem c10_sequence_assignment (s : CSState) (cmds : List (List Nat × Nat))
    (h : s.commandSequence < 256) :
    (applyCommands s cmds).commandSequence
      = (s.commandSequence + cmds.length) % 256
  ∧ (applyCommands s cmds).commandSequence < 256
  ∧ (applyCommands s cmds).commandQueue.map Cmd.sequence
      = s.commandQueue.map Cmd.sequence
        ++ (List.range cmds.length).map (fun i => (s.commandSequence + i) % 256) := by
  induction cmds generalizing s with
  | nil =>
    refine ⟨?_, ?_, ?_⟩
    · simp [applyCommands, Nat.mod_eq_of_lt h]
    · simpa [applyCommands] using h
    · simp [applyCommands]
  | cons p ps ih =>
    have hstep : applyCommands s (p :: ps) = applyCommands (command p.1 p.2 s) ps := rfl
    have hseq' : (command p.1 p.2 s).commandSequence = (s.commandSequence + 1) % 256 :=
      command_commandSequence p.1 p.2 s
    have hlt' : (command p.1 p.2 s).commandSequence < 256 := by
      rw [hseq']
      exact Nat.mod_lt _ (by norm_num)
    obtain ⟨ih1, ih2, ih3⟩ := ih (command p.1 p.2 s) hlt'
    refine ⟨?_, ?_, ?_⟩
    · rw [hstep, ih1, hseq', Nat.mod_add_mod, List.length_cons]
      congr 1
      omega
    · rw [hstep]
      exact ih2
    · rw [hstep, ih3, command_commandQueue, List.map_append, List.append_assoc]
      congr 1
      rw [List.length_cons, List.range_succ_eq_map]
      simp only [List.map_cons, List.map_map, List.map_nil, List.cons_append,
        List.nil_append]
      congr 1
      · simp [pushedCmd, Nat.mod_eq_of_lt h]
      · simp only [hseq']
        apply List.map_congr_left
        intro i _
        simp only [Function.comp_apply]
        omega

/-- C7 counterexample.  A state with one pending command (with an armed
response timer) refutes the claim: after `disconnect` the command
queue is not empty, no callback has been completed (with a
Disconnected error or otherwise), and the armed timer handle is still
stored uncancelled. -/
theorem c7_counterexample :
    ¬ ((disconnect
        { commandQueue := [⟨0, [0, 16], 5, JsTimer.jtimer 0, 7⟩],
          completions := [], rxCharacteristic := some 1,
          txCharacteristic := some 2, deviceType := some "CS1108",
          peripheral := some 3, controllerService := some 4 }).commandQueue = [])
    ∧ (disconnect
        { commandQueue := [⟨0, [0, 16], 5, JsTimer.jtimer 0, 7⟩],
          completions := [], rxCharacteristic := some 1,
          txCharacteristic := some 2, deviceType := some "CS1108",
          peripheral := some 3, controllerService := some 4 }).completions = []
    ∧ (disconnect
        { commandQueue := [⟨0, [0, 16], 5, JsTimer.jtimer 0, 7⟩],
          completions := [], rxCharacteristic := some 1,
          txCharacteristic := some 2, deviceType := some "CS1108",
          peripheral := some 3, controllerService := some 4 }).commandQueue.map
        Cmd.responseTimer = [JsTimer.jtimer 0] := by
  refine ⟨?_, rfl, rfl⟩
  simp [disconnect]

/-- C7 amended.  `disconnect` nulls the characteristic, device-type,
peripheral and service references, but leaves the command queue
completely unchanged: no pending command is removed, no pending
callback is completed (with a Disconnected error or otherwise), and
no armed response timer is cancelled. -/
theorem c7_disconnect_leaves_queue (s : ConnState) :
    (disconnect s).commandQueue = s.commandQueue
  ∧ (disconnect s).completions = s.completions
  ∧ (disconnect s).rxCharacteristic = none
  ∧ (disconnect s).txCharacteristic = none
  ∧ (disconnect s).deviceType = none
  ∧ (disconnect s).peripheral = none
  ∧ (disconnect s).controllerService = none :=
  ⟨rfl, rfl, rfl, rfl, rfl, rfl, rfl⟩

theorem controllerChunks_join (data : List Nat) :
    (controllerChunks data).flatten = data := by
  induction data using controllerChunks.induct with
  | case1 => simp [controllerChunks]
  | case2 d hne ih =>
    rw [controllerChunks, dif_neg hne]
    simp [ih]

theorem controllerChunks_length (data : List Nat) :
    (controllerChunks data).length = (data.length + 19) / 20 := by
  induction data using controllerChunks.induct with
  | case1 => simp [controllerChunks]
  | case2 d hne ih =>
    rw [controllerChunks, dif_neg hne]
    have hp : 0 < d.length := List.length_pos.mpr hne
    simp only [List.length_cons, ih, List.length_drop]
    omega

theorem controllerChunks_dropLast (data : List Nat) :
    ∀ c ∈ (controllerChunks data).dropLast, c.length = 20 := by
  induction data using controllerChunks.induct with
  | case1 =>
    intro c hc
    simp [controllerChunks] at hc
  | case2 d hne ih =>
    rw [controllerChunks, dif_neg hne]
    by_cases hd : d.drop 20 = []
    · rw [hd, controllerChunks]
      intro c hc
      simp at hc
    · have hlen : 20 < d.length := by
        have := List.length_pos.mpr hd
        simp only [List.length_drop] at this
        omega
      obtain ⟨r, rs, hrs⟩ : ∃ r rs, controllerChunks (d.drop 20) = r :: rs := by
        rw [controllerChunks, dif_neg hd]
        exact ⟨_, _, rfl⟩
      rw [hrs]
      rw [show (d.take 20 :: r :: rs).dropLast = d.take 20 :: (r :: rs).dropLast
          from rfl]
      intro c hc
      rcases List.mem_cons.mp hc with hc' | hc'
      · subst hc'
        simp only [List.length_take]
        omega
      · exact ih c (by rw [hrs]; exact hc')

theorem controllerChunks_getLast (data : List Nat) (hne : data ≠ []) :
    ∀ c, (controllerChunks data).getLast? = some c →
      c.length = if data.length % 20 = 0 then 20 else data.length % 20 := by
  induction data using controllerChunks.induct with
  | case1 =>
    intro c hc
    simp [controllerChunks] at hc
  | case2 d hd ih =>
    intro c hc
    rw [controllerChunks, dif_neg hd] at hc
    have hp : 0 < d.length := List.length_pos.mpr hd
    by_cases hdrop : d.drop 20 = []
    · have hle : d.length ≤ 20 := by
        have : d.length - 20 = 0 := by
          simpa [List.length_drop] using congrArg List.length hdrop
        omega
      rw [hdrop] at hc
      rw [show controllerChunks ([] : List Nat) = [] by simp [controllerChunks]] at hc
      simp only [List.getLast?_singleton, Option.some_inj] at hc
      subst hc
      simp only [List.length_take]
      split <;> omega
    · have hlen : 20 < d.length := by
        have := List.length_pos.mpr hdrop
        simp only [List.length_drop] at this
        omega
      obtain ⟨r, rs, hrs⟩ : ∃ r rs, controllerChunks (d.drop 20) = r :: rs := by
        rw [controllerChunks, dif_neg hdrop]
        exact ⟨_, _, rfl⟩
      rw [hrs, List.getLast?_cons_cons] at hc
      have := ih hdrop c (by rw [hrs]; exact hc)
      simp only [List.length_drop] at this
      have hmod : (d.length - 20) % 20 = d.length % 20 := by omega
      rw [hmod] at this
      exact this

theorem bleChunks_length (data : List Nat) :
    (bleChunks data).length = (data.length + 19) / 20 := by
  induction data using bleChunks.induct with
  | case1 => simp [bleChunks]
  | case2 d hne ih =>
    rw [bleChunks, dif_neg hne]
    have hp : 0 < d.length := List.length_pos.mpr hne
    simp only [List.length_cons, ih, List.length_drop]
    omega

theorem bleChunks_all_20 (data : List Nat) :
    ∀ c ∈ bleChunks data, c.length = 20 := by
  induction data using bleChunks.induct with
  | case1 =>
    intro c hc
    simp [bleChunks] at hc
  | case2 d hne ih =>
    intro c hc
    rw [bleChunks, dif_neg hne] at hc
    rcases List.mem_cons.mp hc with hc' | hc'
    · subst hc'
      simp only [List.length_append, List.length_take, List.length_replicate]
      omega
    · exact ih c hc'

theorem bleChunks_flatten (data : List Nat) :
    (bleChunks data).flatten
      = data ++ List.replicate (20 * ((data.length + 19) / 20) - data.length) 0 := by
  induction data using bleChunks.induct with
  | case1 => simp [bleChunks]
  | case2 d hne ih =>
    rw [bleChunks, dif_neg hne]
    have hp : 0 < d.length := List.length_pos.mpr hne
    simp only [List.flatten_cons, ih, List.length_drop]
    by_cases hle : d.length ≤ 20
    · have htake : d.take 20 = d := List.take_of_length_le hle
      have hdrop : d.drop 20 = [] := List.drop_eq_nil_of_le hle
      rw [htake, hdrop]
      simp only [List.nil_append, List.append_assoc]
      congr 1
      rw [← List.replicate_add]
      congr 1
      omega
    · have htake : (d.take 20).length = 20 := by
        simp only [List.length_take]
        omega
      rw [htake]
      simp only [Nat.sub_self, List.replicate_zero, List.append_nil]
      rw [← List.append_assoc, List.take_append_drop]
      congr 1
      congr 1
      omega

theorem getLastD_cons_mem (b : List Nat) (rest : List (List Nat)) (d : List Nat) :
    (b :: rest).getLastD d ∈ b :: rest := by
  rcases hx : (b :: rest).getLast? with _ | y
  · simp [List.getLast?_eq_none_iff] at hx
  · have hval : (b :: rest).getLastD d = y := by
      rw [List.getLastD_eq_getLast?, hx]
      rfl
    rw [hval]
    exact List.mem_of_getLast?_eq_some hx

theorem bleChunks_ne_nil (data : List Nat) (h : data ≠ []) :
    bleChunks data ≠ [] := by
  rw [bleChunks, dif_neg h]
  simp

theorem bleIssuedChunks_eq (data : List Nat) (hne : data ≠ []) :
    bleIssuedChunks data
      = (bleChunks data).getD 0 []
        :: List.replicate ((data.length + 19) / 20 - 1) ((bleChunks data).getLastD []) := by
  have hlen := bleChunks_length data
  unfold bleIssuedChunks
  cases hb : bleChunks data with
  | nil => exact absurd hb (bleChunks_ne_nil data hne)
  | cons c rest =>
    rw [hb] at hlen
    simp only [List.length_cons] at hlen
    have hr : (data.length + 19) / 20 - 1 = rest.length := by omega
    rw [hr]
    simp

theorem bleIssuedChunks_all_20 (data : List Nat) :
    ∀ c ∈ bleIssuedChunks data, c.length = 20 := by
  intro c hc
  unfold bleIssuedChunks at hc
  cases hb : bleChunks data with
  | nil =>
    rw [hb] at hc
    simp at hc
  | cons b rest =>
    rw [hb] at hc
    rcases List.mem_cons.mp hc with hc | hc
    · exact bleChunks_all_20 data c (by rw [hb, hc]; exact List.mem_cons_self _ _)
    · have hcp := List.eq_of_mem_replicate hc
      exact bleChunks_all_20 data c
        (by rw [hb, hcp]; exact getLastD_cons_mem b rest [])

theorem bleIssuedChunks_eq_of_le_two (data : List Nat)
    (h : (bleChunks data).length ≤ 2) : bleIssuedChunks data = bleChunks data := by
  unfold bleIssuedChunks
  cases hb : bleChunks data with
  | nil => rfl
  | cons c rest =>
    cases rest with
    | nil => simp
    | cons c2 rest2 =>
      cases rest2 with
      | nil => simp [List.getLastD]
      | cons c3 rest3 =>
        rw [hb] at h
        simp only [List.length_cons] at h
        omega

theorem bleChunks_replicate41 :
    bleChunks (List.replicate 41 1)
      = [List.replicate 20 1, List.replicate 20 1, 1 :: List.replicate 19 0] := by
  have h1 : List.take 20 (List.replicate 41 1) = List.replicate 20 1 := by decide
  have h2 : List.drop 20 (List.replicate 41 1) = List.replicate 21 1 := by decide
  have h3 : List.take 20 (List.replicate 21 1) = List.replicate 20 1 := by decide
  have h4 : List.drop 20 (List.replicate 21 1) = [1] := by decide
  rw [bleChunks, dif_neg (by simp), h1, h2]
  rw [bleChunks, dif_neg (by simp), h3, h4]
  rw [bleChunks, dif_neg (by simp)]
  rw [show List.drop 20 [1] = ([] : List Nat) from rfl]
  rw [bleChunks]
  simp

/-- C8 counterexample.  The claim, read against what `BleDevice.write`
issues (`src/unnamed/part_003:230-246`), fails concretely.  On the
5-byte buffer `[1,2,3,4,5]` the single issued chunk is 20 bytes long
(zero padded), not `5 = length mod 20` bytes, and its concatenation
is not the original buffer.  On a 41-byte buffer of ones, three
writes are issued but the second repeats the final zero-padded buffer
instead of the second constructed chunk (the pool closures all read
the one `var chunk` binding after the loop), so the issued
concatenation differs from the buffer from byte 21 on. -/
theorem c8_counterexample :
    (bleIssuedChunks [1, 2, 3, 4, 5]).flatten ≠ [1, 2, 3, 4, 5]
  ∧ (bleIssuedChunks [1, 2, 3, 4, 5]).map List.length = [20]
  ∧ bleIssuedChunks (List.replicate 41 1)
      = [List.replicate 20 1, 1 :: List.replicate 19 0, 1 :: List.replicate 19 0]
  ∧ (bleIssuedChunks (List.replicate 41 1)).flatten ≠ List.replicate 41 1
  ∧ (bleIssuedChunks (List.replicate 41 1)).flatten.take 41 ≠ List.replicate 41 1 := by
  have hsmall : bleIssuedChunks [1, 2, 3, 4, 5] = bleChunks [1, 2, 3, 4, 5] := by
    apply bleIssuedChunks_eq_of_le_two
    rw [bleChunks_length]
    decide
  have h41 : bleIssuedChunks (List.replicate 41 1)
      = [List.replicate 20 1, 1 :: List.replicate 19 0, 1 :: List.replicate 19 0] := by
    unfold bleIssuedChunks
    rw [bleChunks_replicate41]
    simp [List.getLastD]
  refine ⟨?_, ?_, h41, ?_, ?_⟩
  · rw [hsmall, bleChunks_flatten]
    decide
  · have hlen : (bleChunks [1, 2, 3, 4, 5]).length = 1 := by
      rw [bleChunks_length]
      decide
    obtain ⟨c, hc⟩ := List.length_eq_one.mp hlen
    have h20 : c.length = 20 :=
      bleChunks_all_20 [1, 2, 3, 4, 5] c (by rw [hc]; exact List.mem_singleton_self c)
    rw [hsmall, hc]
    simp [h20]
  · rw [h41]
    decide
  · rw [h41]
    decide

/-- C8 amended.  For every non-empty buffer, both `write`
implementations construct `ceil(length/20)` chunk buffers in order.
`Controller.prototype.write` calls `writeCharacteristic` with each
slice immediately inside the loop: every chunk except possibly the
last is exactly 20 bytes, the final chunk has `length mod 20` bytes
when that is non-zero, and the concatenation of the issued chunks
equals the buffer.  `BleDevice.write` constructs 20-byte zero-padded
buffers, and their concatenation is the buffer followed by
`20 * ceil(length/20) - length` zero bytes — but the deferred pool
closures all capture the single `var chunk` variable, so what is
issued is the first constructed buffer followed by
`ceil(length/20) - 1` copies of the final zero-padded one: still
`ceil(length/20)` writes of 20 bytes each, whose concatenation equals
the buffer followed by zeros only when the buffer is at most 40 bytes
(one or two chunks); for longer buffers the middle writes repeat the
final chunk instead of the middle ones. -/
theorem c8_chunking (data : List Nat) (hne : data ≠ []) :
    (controllerChunks data).length = (data.length + 19) / 20
  ∧ (controllerChunks data).flatten = data
  ∧ (∀ c ∈ (controllerChunks data).dropLast, c.length = 20)
  ∧ (∀ c, (controllerChunks data).getLast? = some c →
        c.length = if data.length % 20 = 0 then 20 else data.length % 20)
  ∧ (bleChunks data).length = (data.length + 19) / 20
  ∧ (∀ c ∈ bleChunks data, c.length = 20)
  ∧ (bleChunks data).flatten
      = data ++ List.replicate (20 * ((data.length + 19) / 20) - data.length) 0
  ∧ bleIssuedChunks data
      = (bleChunks data).getD 0 []
        :: List.replicate ((data.length + 19) / 20 - 1) ((bleChunks data).getLastD [])
  ∧ (bleIssuedChunks data).length = (data.length + 19) / 20
  ∧ (∀ c ∈ bleIssuedChunks data, c.length = 20)
  ∧ (data.length ≤ 40 →
      (bleIssuedChunks data).flatten
        = data ++ List.replicate (20 * ((data.length + 19) / 20) - data.length) 0) := by
  refine ⟨controllerChunks_length data, controllerChunks_join data,
    controllerChunks_dropLast data, controllerChunks_getLast data hne,
    bleChunks_length data, bleChunks_all_20 data, bleChunks_flatten data,
    bleIssuedChunks_eq data hne, ?_, bleIssuedChunks_all_20 data, ?_⟩
  · rw [bleIssuedChunks_eq data hne]
    have hlen := bleChunks_length data
    have hpos : 0 < (data.length + 19) / 20 := by
      have : 0 < data.length := List.length_pos.mpr hne
      omega
    simp only [List.length_cons, List.length_replicate]
    omega
  · intro h40
    have hle : (bleChunks data).length ≤ 2 := by
      rw [bleChunks_length]
      omega
    rw [bleIssuedChunks_eq_of_le_two data hle]
    exact bleChunks_flatten data

theorem c8_witness :
    ([1, 2, 3, 4, 5] : List Nat) ≠ []
  ∧ (controllerChunks [1, 2, 3, 4, 5]).flatten = [1, 2, 3, 4, 5] :=
  ⟨by decide, (c8_chunking [1, 2, 3, 4, 5] (by decide)).2.1⟩

theorem checkChars_ok (sKey : String) (chars : List CharEntry)
    (h : ∀ c ∈ chars, charOk c) : checkChars sKey chars = Except.ok chars.length := by
  induction chars with
  | nil => rfl
  | cons c rest ih =>
    have hc := h c (by simp)
    have hcond : (!c.present && !c.isOptional) = false := by
      rcases hc with hc | hc <;> simp [hc]
    rw [checkChars, hcond]
    simp only [Bool.false_eq_true, if_false]
    rw [ih (fun x hx => h x (by simp [hx]))]
    rfl

theorem checkChars_err (sKey : String) (cpre : List CharEntry) (c : CharEntry)
    (cpost : List CharEntry) (h : ∀ x ∈ cpre, charOk x)
    (hp : c.present = false) (ho : c.isOptional = false) :
    checkChars sKey (cpre ++ c :: cpost)
      = Except.error (charErrMsg c.key sKey c.uuid) := by
  induction cpre with
  | nil =>
    rw [List.nil_append, checkChars]
    simp [hp, ho]
  | cons x xs ih =>
    have hx := h x (by simp)
    have hcond : (!x.present && !x.isOptional) = false := by
      rcases hx with hx | hx <;> simp [hx]
    rw [List.cons_append, checkChars, hcond]
    simp only [Bool.false_eq_true, if_false]
    rw [ih (fun y hy => h y (by simp [hy]))]
    rfl

/-- C9.  (a) If every service is bound and every non-optional
characteristic is bound, `_checkGattServicesAndChars` resolves (with
the counts of services and characteristics); optional characteristics
may be absent.  (b) If all services are bound and some non-optional
characteristic is unbound, it rejects with the error message naming
the first such characteristic's key, its service's key, and its UUID,
before any transport use. -/
theorem c9_inspection_verification :
    (∀ services : List ServiceEntry, (∀ s ∈ services, svcOk s) →
      checkGatt services
        = Except.ok (services.length,
            (services.map (fun s => s.characteristics.length)).sum))
  ∧ (∀ (pre : List ServiceEntry) (sKey sUuid : String)
      (cpre : List CharEntry) (c : CharEntry) (cpost : List CharEntry)
      (post : List ServiceEntry),
      (∀ x ∈ pre, svcOk x) → (∀ x ∈ cpre, charOk x) →
      c.present = false → c.isOptional = false →
      checkGatt (pre ++
          { key := sKey, uuid := sUuid, present := true,
            characteristics := cpre ++ c :: cpost } :: post)
        = Except.error (charErrMsg c.key sKey c.uuid)) := by
  constructor
  · intro services h
    induction services with
    | nil => rfl
    | cons s rest ih =>
      obtain ⟨hsp, hsc⟩ := h s (by simp)
      rw [checkGatt, hsp]
      simp only [Bool.not_true, Bool.false_eq_true, if_false]
      rw [checkChars_ok s.key s.characteristics hsc,
        ih (fun x hx => h x (by simp [hx]))]
      simp
  · intro pre sKey sUuid cpre c cpost post hpre hcpre hp ho
    induction pre with
    | nil =>
      rw [List.nil_append, checkGatt]
      simp only [Bool.not_true, Bool.false_eq_true, if_false]
      rw [checkChars_err sKey cpre c cpost hcpre hp ho]
    | cons x xs ih =>
      obtain ⟨hxp, hxc⟩ := hpre x (by simp)
      rw [List.cons_append, checkGatt, hxp]
      simp only [Bool.not_true, Bool.false_eq_true, if_false]
      rw [checkChars_ok x.key x.characteristics hxc,
        ih (fun y hy => hpre y (by simp [hy]))]

theorem c9_witness :
    checkGatt
      [{ key := "deviceInformation", uuid := "0000180a-0000-1000-8000-00805f9b34fb",
         present := true,
         characteristics :=
          [{ key := "modelNumber", uuid := "00002a24-0000-1000-8000-00805f9b34fb",
             isOptional := false, present := true },
           { key := "dongleSerialNumber",
             uuid := "00002a25-0000-1000-8000-00805f9b34fb",
             isOptional := true, present := false }] }]
      = Except.ok (1, 2)
  ∧ checkGatt
      [{ key := "deviceInformation", uuid := "0000180a-0000-1000-8000-00805f9b34fb",
         present := true,
         characteristics :=
          [{ key := "modelNumber", uuid := "00002a24-0000-1000-8000-00805f9b34fb",
             isOptional := false, present := true },
           { key := "firmwareRevision",
             uuid := "00002a26-0000-1000-8000-00805f9b34fb",
             isOptional := false, present := false }] }]
      = Except.error (charErrMsg "firmwareRevision" "deviceInformation"
          "00002a26-0000-1000-8000-00805f9b34fb") := by
  constructor
  · exact c9_inspection_verification.1 _ (by decide)
  · exact c9_inspection_verification.2 []
      "deviceInformation" "0000180a-0000-1000-8000-00805f9b34fb"
      [{ key := "modelNumber", uuid := "00002a24-0000-1000-8000-00805f9b34fb",
         isOptional := false, present := true }]
      { key := "firmwareRevision", uuid := "00002a26-0000-1000-8000-00805f9b34fb",
        isOptional := false, present := false }
      [] [] (by decide) (by decide) rfl rfl

/-- C4.  A softwareRevision of "1.4" is below the CS1816 `superWatch`
requirement of 1.5, yet `_modbusCommandSupported` reports the command
supported — the guard reads the misspelled property `requriements`,
which no descriptor defines, so the requirements loop is dead code —
and `superWatch` therefore proceeds: it resolves rather than
rejecting, and performs transport I/O beginning with an unsubscribe
of the superWatcher characteristic, instead of rejecting with a
not-supported-on-this-firmware error and no I/O as the claim
requires.  (Indeed the middle conjunct shows `supported = true` for
every reported `periphInfo`.) -/
theorem c4_superWatch_version_gate_dead :
    (modbusCommandSupported cs1816commands
        (fun k => if k = "softwareRevision" then some "1.4" else none)
        "superWatch").supported = true
  ∧ (∀ periphInfo : String → Option String,
      (modbusCommandSupported cs1816commands periphInfo "superWatch").supported
        = true)
  ∧ (superWatch cs1816commands
        (fun k => if k = "softwareRevision" then some "1.4" else none)
        "CS1816" 1 [32, 33]).2 = none
  ∧ (superWatch cs1816commands
        (fun k => if k = "softwareRevision" then some "1.4" else none)
        "CS1816" 1 [32, 33]).1.head? = some (Action.unsub "superWatcher") :=
  ⟨rfl, fun _ => rfl, rfl, rfl⟩

/-- C5.  The claim (and the code's own rejection message, which gives
the valid range as 0 to watcherMax-1) says every slot in
`[0, watcherMax)` is accepted, with the unsubscribe, device command
and callback-clear performed in order.  That holds for slots 1..14 (on
a CS1816 with 15 counted status characteristics), shown here for slot
1 — but slot 0 is rejected as an invalid slot, because the guard
`if (charKey && slot)` treats the number 0 as falsy. -/
theorem c5_unwatch_rejects_slot_zero :
    unwatch (cs1816commands "unwatch") (some 255) "CS1816" 15 0
      = ([], some "unwatch: Invalid slot 0. Range for CS1816 is 0 to 14.")
  ∧ unwatch (cs1816commands "unwatch") (some 255) "CS1816" 15 1
      = ([Action.unsub "status2", Action.devCmd 3 [1],
          Action.clearCb "_watcherCb" (some 1), Action.emitEv "unwatch"], none) :=
  ⟨rfl, rfl⟩

/-- C6.  For every slot outside `[0, watcherCapacity)` — negative or at
least the capacity — `watch` rejects with the invalid-slot message and
performs no action at all: no unsubscribe, no device command, no
subscription.  The second conjunct ties the capacity to the count of
`statusN` characteristic keys of the CS1816 controller service found
during inspection: 15. -/
theorem c6_watch_invalid_slot_no_io :
    (∀ (wc : CommandDef) (modelNumber : String) (keys : List String)
      (slot : Int) (id address len : Nat),
      (slot < 0 ∨ (countStatusChars keys : Int) ≤ slot) →
      watch (some wc) modelNumber (countStatusChars keys) slot id address len
        = ([], some (watchInvalidSlotMsg slot modelNumber (countStatusChars keys))))
  ∧ countStatusChars cs1816controllerCharKeys = 15 := by
  constructor
  · intro wc modelNumber keys slot id address len h
    have hcond : ¬ (0 ≤ slot ∧ slot < (countStatusChars keys : Int)) := by
      rcases h with h | h <;> omega
    simp only [watch, if_neg hcond]
  · decide

theorem c6_witness :
    watch (some { opCode := 2, maxLen := some 4 }) "CS1816"
        (countStatusChars cs1816controllerCharKeys) 15 1 63 4
      = ([], some (watchInvalidSlotMsg 15 "CS1816"
          (countStatusChars cs1816controllerCharKeys))) :=
  c6_watch_invalid_slot_no_io.1 { opCode := 2, maxLen := some 4 } "CS1816"
    cs1816controllerCharKeys 15 1 63 4 (Or.inr (by decide))

theorem c10_witness :
    initState.commandSequence < 256
  ∧ (applyCommands initState [([0], 0), ([1], 1), ([2], 2)]).commandQueue.map Cmd.sequence
      = initState.commandQueue.map Cmd.sequence
        ++ (List.range ([([0], 0), ([1], 1), ([2], 2)] : List (List Nat × Nat)).length).map
            (fun i => (initState.commandSequence + i) % 256) :=
  ⟨by decide, (c10_sequence_assignment initState [([0], 0), ([1], 1), ([2], 2)]
      (by decide)).2.2⟩

end CsBle
